import Mathlib

/-!
# gitfresh: the repository controller and its driver

A shallow embedding of `repo.go` and of the startup sequence and polling loop of
`main.go`.

* Go `string` and `[]byte` values are byte sequences (`GoString`).
* A Go `error` is `Option GoError`, `none` being `nil`.
* The outside world (the `git` executable, the filesystem, `path.Join`) is a
  `World σ`: total functions over an abstract environment state `σ`.
* Every operation returns a `Res`: its Go return value, the environment after
  it, and the chronological list of the `Event`s it emitted (calls of the
  logger, `git` invocations, `os.MkdirAll`, `os.Exit`).
-/

namespace Gitfresh

/-! ## Data model -/

/-- One byte. -/
abbrev Byte := UInt8

/-- The contents of a Go `string` or `[]byte`: a finite sequence of bytes. -/
abbrev GoString := List Byte

/-- The bytes of an ASCII string literal of the source. -/
def lit (s : String) : GoString := s.toList.map (fun c => c.toNat.toUInt8)

/-- An error value coming from the `os` or `os/exec` package: its rendered
message and whether `os.IsNotExist` holds of it. -/
structure OsError where
  msg : GoString
  notExist : Bool
deriving DecidableEq

/-- The error values of the program: library errors, the package variable
`errInvalidRepo`, and `*cmdErr` (`repo.go`, lines 115-119). -/
inductive GoError where
  | os (e : OsError)
  | errInvalidRepo
  | cmdErr (err : GoError) (cmd : GoString) (cmdOut : List Byte)
deriving DecidableEq

/-- A Go `error` interface value; `none` is `nil`. -/
abbrev error := Option GoError

/-- The `Error()` method. For `cmdErr` it is
`fmt.Sprintf("%v \nwhile running command [%s] \noutput was [%s]", e.err, e.cmd, e.cmdOut)`;
`%v` of an error is its `Error()`, `%s` of a string or byte slice is its bytes. -/
def GoError.Error : GoError → GoString
  | .os e => e.msg
  | .errInvalidRepo => lit "no valid repository found in the specified path"
  | .cmdErr err cmd cmdOut =>
      err.Error ++ lit " \nwhile running command [" ++ cmd ++ lit "] \noutput was [" ++ cmdOut
        ++ lit "]"

/-- The levels of the logger used by the program. -/
inductive Level where
  | debug
  | info
  | error
  | critical
deriving DecidableEq

/-- What the program does to the outside world. -/
inductive Event where
  /-- A call of `log.Debug`, `log.Info`, `log.Error` or `log.Critical`. -/
  | log (level : Level) (msg : GoString)
  /-- A run of `exec.Command("git", argv...).CombinedOutput()`. -/
  | git (argv : List GoString)
  /-- A call of `os.MkdirAll(path, perm)`. -/
  | mkdirAll (path : GoString) (perm : Nat)
  /-- A call of `os.Exit(code)`. -/
  | exit (code : Nat)
deriving DecidableEq

/-- The part of `os.FileInfo` the program reads. -/
structure FileInfo where
  isDir : Bool
deriving DecidableEq

/-- The library functions and external collaborators the program calls, over an
environment state `σ`. -/
structure World (σ : Type) where
  /-- The function `path.Join` of the standard library, at two arguments. -/
  join : GoString → GoString → GoString
  /-- The call `exec.Command("git", argv...).CombinedOutput()`: captured output,
  the launch or exit error if any, and the environment afterwards. -/
  combinedOutput : σ → List GoString → (List Byte × Option OsError) × σ
  /-- The call `os.Stat(path)`. -/
  stat : σ → GoString → Except OsError FileInfo
  /-- The call `os.MkdirAll(path, perm)`. -/
  mkdirAll : σ → GoString → Nat → Option OsError × σ

/-- The outcome of an operation: its return value, the environment after it and
the events it emitted, oldest first. -/
structure Res (σ α : Type) where
  val : α
  env : σ
  events : List Event

/-- The struct `repo` (`repo.go`, lines 10-14). -/
structure repo where
  Path : GoString
  Remote : GoString
  Branch : GoString
deriving DecidableEq

/-- The constructor `NewRepo`. -/
def NewRepo (path remote branch : GoString) : repo :=
  { Path := path, Remote := remote, Branch := branch }

/-! ## Formatting and byte helpers of the standard library -/

/-- The rendering of a `[]string` under the verb `%v`: the elements separated by
one space, between square brackets. -/
def fmtStrings (xs : List GoString) : GoString :=
  lit "[" ++ (lit " ").intercalate xs ++ lit "]"

/-- The function `bytes.Trim(bs, string(c))` for a one-byte ASCII cutset: the
trailing bytes equal to `c` are cut, then the leading ones. -/
def bytesTrim (bs : List Byte) (c : Byte) : List Byte :=
  (bs.rdropWhile (fun b => b == c)).dropWhile (fun b => b == c)

/-- The newline byte. -/
def newline : Byte := 10

/-! ## main.go: existence checks -/

/-- The function `pathExists` (`main.go`, lines 103-115). -/
def pathExists (w : World σ) (path : GoString) (dir : Bool) (s : σ) : Bool × error :=
  match w.stat s path with
  | .ok fi => if dir then (fi.isDir, none) else (true, none)
  | .error err => if err.notExist then (false, none) else (false, some (.os err))

/-- The function `fileExists`. -/
def fileExists (w : World σ) (path : GoString) (s : σ) : Bool × error :=
  pathExists w path false s

/-- The function `dirExists`. -/
def dirExists (w : World σ) (path : GoString) (s : σ) : Bool × error :=
  pathExists w path true s

/-! ## repo.go -/

/-- The method `Valid`. -/
def repo.Valid (w : World σ) (r : repo) (s : σ) : Bool × error :=
  dirExists w (w.join r.Path (lit ".git")) s

/-- The method `run` (`repo.go`, lines 100-113). -/
def repo.run (w : World σ) (r : repo) (arg : List GoString) (s : σ) :
    Res σ (List Byte × error) :=
  let cmdArgs := [lit "-C", r.Path] ++ arg
  let cmdStr := lit "git " ++ fmtStrings cmdArgs
  let ev := [Event.log .debug (lit "running command: " ++ cmdStr), Event.git cmdArgs]
  let out := w.combinedOutput s cmdArgs
  match out.1.2 with
  | some err => { val := (out.1.1, some (.cmdErr (.os err) cmdStr out.1.1)), env := out.2, events := ev }
  | none => { val := (out.1.1, none), env := out.2, events := ev }

/-- The method `InitFrom`. -/
def repo.InitFrom (w : World σ) (r : repo) (url : GoString) (s : σ) : Res σ error :=
  let l := Event.log .info (lit "cloning " ++ url ++ lit " into " ++ r.Path)
  let x := r.run w [lit "clone", url, lit "."] s
  match x.val.2 with
  | some err => { val := some err, env := x.env, events := l :: x.events }
  | none =>
      { val := none, env := x.env,
        events := l :: x.events ++ [Event.log .info (lit "clone finished")] }

/-- The method `Fetch`. -/
def repo.Fetch (w : World σ) (r : repo) (remote branch : GoString) (s : σ) : Res σ error :=
  let l := Event.log .debug (lit "fetching " ++ remote ++ lit " " ++ branch)
  let x := r.run w [lit "fetch", remote, branch] s
  { val := x.val.2, env := x.env, events := l :: x.events }

/-- The method `Checkout`. -/
def repo.Checkout (w : World σ) (r : repo) (revision : GoString) (s : σ) : Res σ error :=
  let l := Event.log .info (lit "checking out " ++ revision)
  let x := r.run w [lit "checkout", revision] s
  match x.val.2 with
  | some err => { val := some err, env := x.env, events := l :: x.events }
  | none =>
      { val := none, env := x.env,
        events := l :: x.events ++ [Event.log .info (lit "synced to revision " ++ revision)] }

/-- The method `revision` (`repo.go`, lines 67-76). -/
def repo.revision (w : World σ) (r : repo) (target : GoString) (s : σ) :
    Res σ (GoString × error) :=
  let l := Event.log .debug (lit "getting revision for " ++ target)
  let x := r.run w [lit "rev-parse", target] s
  match x.val.2 with
  | some err => { val := ([], some err), env := x.env, events := l :: x.events }
  | none =>
      let rev := bytesTrim x.val.1 newline
      { val := (rev, none), env := x.env,
        events := l :: x.events ++
          [Event.log .debug (lit "revision for " ++ target ++ lit " is " ++ rev)] }

/-- The method `Revision`. -/
def repo.Revision (w : World σ) (r : repo) (s : σ) : Res σ (GoString × error) :=
  r.revision w (lit "HEAD") s

/-- The method `RemoteRevision`. -/
def repo.RemoteRevision (w : World σ) (r : repo) (s : σ) : Res σ (GoString × error) :=
  r.revision w (r.Remote ++ lit "/" ++ r.Branch) s

/-- The method `Sync` (`repo.go`, lines 79-98). -/
def repo.Sync (w : World σ) (r : repo) (s : σ) : Res σ error :=
  let f := r.Fetch w r.Remote r.Branch s
  match f.val with
  | some err => { val := some err, env := f.env, events := f.events }
  | none =>
    let l := r.Revision w f.env
    match l.val.2 with
    | some err => { val := some err, env := l.env, events := f.events ++ l.events }
    | none =>
      let m := r.RemoteRevision w l.env
      match m.val.2 with
      | some err =>
          { val := some err, env := m.env, events := f.events ++ l.events ++ m.events }
      | none =>
        if l.val.1 ≠ m.val.1 then
          let c := r.Checkout w m.val.1 m.env
          { val := c.val, env := c.env,
            events := f.events ++ l.events ++ m.events ++
              [Event.log .info (lit "the repo is out of sync with remote")] ++ c.events }
        else
          { val := none, env := m.env,
            events := f.events ++ l.events ++ m.events ++
              [Event.log .debug (lit "the repo is in sync with remote")] }

/-! ## main.go: startup and polling -/

/-- The resolved flags the startup sequence reads. -/
structure Config where
  path : GoString
  remote : GoString
  branch : GoString
  initFrom : GoString
deriving DecidableEq

/-- How the startup sequence ends: the process exits, or the polling loop is
entered. -/
inductive Outcome where
  | exited (code : Nat)
  | polling
deriving DecidableEq

/-- The function `abort`: a critical message, then `os.Exit(1)`. -/
def abort (err : GoError) : List Event :=
  [Event.log .critical (lit "aborting. error: " ++ err.Error), Event.exit 1]

/-- The function `main` from the construction of the repo (line 47) up to the
polling loop (line 66); `check(err)` is `abort(err)` when `err` is not nil. -/
def main (w : World σ) (cfg : Config) (s : σ) : Res σ Outcome :=
  let repo := NewRepo cfg.path cfg.remote cfg.branch
  match repo.Valid w s with
  | (_, some err) => { val := .exited 1, env := s, events := abort err }
  | (true, none) => { val := .polling, env := s, events := [] }
  | (false, none) =>
    if cfg.initFrom = [] then
      { val := .exited 1, env := s, events := abort .errInvalidRepo }
    else
      match dirExists w cfg.path s with
      | (_, some err) => { val := .exited 1, env := s, events := abort err }
      | (true, none) =>
          let x := repo.InitFrom w cfg.initFrom s
          { val := .polling, env := x.env, events := x.events }
      | (false, none) =>
          let l := Event.log .info (lit "creating directory for cloning: " ++ cfg.path)
          let mk := w.mkdirAll s cfg.path 0o700
          match mk.1 with
          | some err =>
              { val := .exited 1, env := mk.2,
                events := [l, Event.mkdirAll cfg.path 0o700] ++ abort (.os err) }
          | none =>
              let x := repo.InitFrom w cfg.initFrom mk.2
              { val := .polling, env := x.env,
                events := [l, Event.mkdirAll cfg.path 0o700] ++ x.events }

/-- One iteration of the polling loop of `main` (lines 69-73). -/
def tick (w : World σ) (r : repo) (s : σ) : Res σ Unit :=
  let x := r.Sync w s
  match x.val with
  | some err =>
      { val := (), env := x.env,
        events := x.events ++
          [Event.log .error (lit "error syncing repo: " ++ err.Error ++ lit "\n")] }
  | none => { val := (), env := x.env, events := x.events }

/-- The calls of `Sync` made one after the other by the first `n` ticks: for
each call its return value and the events it emitted, and the environment after
the last. -/
def syncCalls (w : World σ) (r : repo) : Nat → σ → List (error × List Event) × σ
  | 0, s => ([], s)
  | n + 1, s =>
      let x := r.Sync w s
      let rest := syncCalls w r n x.env
      ((x.val, x.events) :: rest.1, rest.2)

/-! ## Observations on event lists -/

/-- The argument vectors of the `git` runs of an event list, in order. -/
def gitCalls (ev : List Event) : List (List GoString) :=
  ev.filterMap fun e =>
    match e with
    | .git argv => some argv
    | _ => none

/-- The log calls of an event list, in order. -/
def logCalls (ev : List Event) : List (Level × GoString) :=
  ev.filterMap fun e =>
    match e with
    | .log lvl msg => some (lvl, msg)
    | _ => none

/-- The argument vector of the `git` run made by `Checkout(rev)`. -/
def checkoutArgv (r : repo) (rev : GoString) : List GoString :=
  [lit "-C", r.Path, lit "checkout", rev]

/-- The revisions of the `checkout` runs of an event list, in order: one per
call of `Checkout`, which is the only operation running that subcommand. -/
def checkoutCalls (ev : List Event) : List GoString :=
  (gitCalls ev).filterMap fun argv =>
    match argv with
    | [_, _, sub, rev] => if sub = lit "checkout" then some rev else none
    | _ => none

/-- The `fetch` runs of an event list: remote and branch of each, in order. -/
def fetchCalls (ev : List Event) : List (GoString × GoString) :=
  (gitCalls ev).filterMap fun argv =>
    match argv with
    | [_, _, sub, remote, branch] => if sub = lit "fetch" then some (remote, branch) else none
    | _ => none

/-- The targets of the `rev-parse` runs of an event list, in order. -/
def revParseCalls (ev : List Event) : List GoString :=
  (gitCalls ev).filterMap fun argv =>
    match argv with
    | [_, _, sub, target] => if sub = lit "rev-parse" then some target else none
    | _ => none

/-! ## Concrete worlds used to evaluate the model -/

/-- A scripted environment: the outcomes of the coming `git` runs, in order (when
the script is exhausted a run succeeds with no output), and the directories and
plain files that exist. -/
structure Script where
  runs : List (List Byte × Option OsError)
  dirs : List GoString
  files : List GoString
deriving DecidableEq

/-- The error of a missing file. -/
def enoent : OsError := { msg := lit "no such file or directory", notExist := true }

/-- The error of a failed `git` run. -/
def exit128 : OsError := { msg := lit "exit status 128", notExist := false }

/-- A permission error. -/
def eacces : OsError := { msg := lit "permission denied", notExist := false }

/-- The world that plays a `Script`; `join` is right for clean, slash-free
second arguments. -/
def scripted : World Script where
  join a b := a ++ lit "/" ++ b
  combinedOutput s _ :=
    match s.runs with
    | [] => (([], none), s)
    | o :: rest => (o, { s with runs := rest })
  stat s p :=
    if p ∈ s.dirs then .ok { isDir := true }
    else if p ∈ s.files then .ok { isDir := false }
    else .error enoent
  mkdirAll s p _ := (none, { s with dirs := p :: s.dirs })

/-- The repository used in the examples. -/
def demo : repo := NewRepo (lit "/tmp/r") (lit "origin") (lit "master")

/-! ## Names for the pieces of `run` and the steps of `Sync` -/

/-- The argument vector `run` hands to `git`. -/
def runArgv (r : repo) (arg : List GoString) : List GoString := lit "-C" :: r.Path :: arg

/-- The command line `run` reconstructs for its messages. -/
def runCmdStr (r : repo) (arg : List GoString) : GoString :=
  lit "git " ++ fmtStrings (runArgv r arg)

/-- The first step of `Sync`: the call `r.Fetch(r.Remote, r.Branch)`. -/
abbrev fetchStep (w : World σ) (r : repo) (s : σ) : Res σ error :=
  r.Fetch w r.Remote r.Branch s

/-- The second step of `Sync`: the call `r.Revision()` after the fetch. -/
abbrev localStep (w : World σ) (r : repo) (s : σ) : Res σ (GoString × error) :=
  r.Revision w (fetchStep w r s).env

/-- The third step of `Sync`: the call `r.RemoteRevision()` after the local lookup. -/
abbrev remoteStep (w : World σ) (r : repo) (s : σ) : Res σ (GoString × error) :=
  r.RemoteRevision w (localStep w r s).env

/-- The step `r.Checkout(remRev)` made after the three others. -/
abbrev checkoutStep (w : World σ) (r : repo) (s : σ) : Res σ error :=
  r.Checkout w (remoteStep w r s).val.1 (remoteStep w r s).env

/-- The runner state in which `Sync` finds nothing to do: the fetch and both
lookups succeed and the two revisions are equal. -/
def InSync (w : World σ) (r : repo) (s : σ) : Prop :=
  (fetchStep w r s).val = none ∧ (localStep w r s).val.2 = none ∧
    (remoteStep w r s).val.2 = none ∧ (localStep w r s).val.1 = (remoteStep w r s).val.1

instance (w : World σ) (r : repo) (s : σ) : Decidable (InSync w r s) := by
  unfold InSync
  infer_instance

/-- The events emitted by the operations `Sync` calls (`Fetch`, `Revision`,
`RemoteRevision`, `Checkout`, each with its runner), along the path `Sync`
takes. -/
def calleeEvents (w : World σ) (r : repo) (s : σ) : List Event :=
  match (fetchStep w r s).val with
  | some _ => (fetchStep w r s).events
  | none =>
    match (localStep w r s).val.2 with
    | some _ => (fetchStep w r s).events ++ (localStep w r s).events
    | none =>
      match (remoteStep w r s).val.2 with
      | some _ => (fetchStep w r s).events ++ (localStep w r s).events ++ (remoteStep w r s).events
      | none =>
        if (localStep w r s).val.1 ≠ (remoteStep w r s).val.1 then
          (fetchStep w r s).events ++ (localStep w r s).events ++ (remoteStep w r s).events ++
            (checkoutStep w r s).events
        else
          (fetchStep w r s).events ++ (localStep w r s).events ++ (remoteStep w r s).events

/-- A byte sequence made of newlines only. -/
def AllNewlines (bs : List Byte) : Prop := ∀ b ∈ bs, b = newline

instance (bs : List Byte) : Decidable (AllNewlines bs) := by
  unfold AllNewlines
  infer_instance

/-- A byte sequence that neither begins nor ends with a newline. -/
def NoOuterNewline (bs : List Byte) : Prop :=
  bs.head? ≠ some newline ∧ bs.getLast? ≠ some newline

instance (bs : List Byte) : Decidable (NoOuterNewline bs) := by
  unfold NoOuterNewline
  infer_instance

/-- A configuration with no bootstrap URL. -/
def plainCfg : Config :=
  { path := lit "/tmp/r", remote := lit "origin", branch := lit "master", initFrom := [] }

/-- A configuration with a bootstrap URL. -/
def bootCfg : Config :=
  { path := lit "/tmp/r", remote := lit "origin", branch := lit "master",
    initFrom := lit "https://example/repo.git" }

/-- The scripted world over a filesystem on which every stat fails with a
permission error. -/
def denied : World Script := { scripted with stat := fun _ _ => .error eacces }

/-! # Theorems -/


/-! ## Basic facts about the operations -/

section Basic

variable {σ : Type} (w : World σ) (r : repo) (s : σ)

theorem run_events (arg : List GoString) :
    (r.run w arg s).events =
      [Event.log .debug (lit "running command: " ++ runCmdStr r arg), Event.git (runArgv r arg)] := by
  unfold repo.run
  simp only []
  split <;> rfl

theorem run_env (arg : List GoString) :
    (r.run w arg s).env = (w.combinedOutput s (runArgv r arg)).2 := by
  unfold repo.run
  simp only []
  split <;> rfl

theorem run_out (arg : List GoString) :
    (r.run w arg s).val.1 = (w.combinedOutput s (runArgv r arg)).1.1 := by
  unfold repo.run
  simp only []
  split <;> rfl

theorem run_err (arg : List GoString) :
    (r.run w arg s).val.2 =
      (w.combinedOutput s (runArgv r arg)).1.2.map fun e =>
        GoError.cmdErr (.os e) (runCmdStr r arg) (w.combinedOutput s (runArgv r arg)).1.1 := by
  rcases h : (w.combinedOutput s (runArgv r arg)).1.2 with _ | e
  · simp only [runArgv] at h
    simp [repo.run, h]
  · simp only [runArgv] at h
    simp [repo.run, h, runArgv, runCmdStr]

theorem gitCalls_append (a b : List Event) : gitCalls (a ++ b) = gitCalls a ++ gitCalls b := by
  simp [gitCalls, List.filterMap_append]

theorem gitCalls_log_cons (lvl : Level) (m : GoString) (a : List Event) :
    gitCalls (Event.log lvl m :: a) = gitCalls a := by
  simp [gitCalls, List.filterMap_cons]

theorem gitCalls_git_cons (argv : List GoString) (a : List Event) :
    gitCalls (Event.git argv :: a) = argv :: gitCalls a := by
  simp [gitCalls, List.filterMap_cons]

theorem gitCalls_nil : gitCalls [] = [] := rfl

theorem gitCalls_run (arg : List GoString) :
    gitCalls (r.run w arg s).events = [runArgv r arg] := by
  rw [run_events]
  simp [gitCalls_log_cons, gitCalls_git_cons, gitCalls_nil]

theorem InitFrom_val (url : GoString) :
    (r.InitFrom w url s).val = (r.run w [lit "clone", url, lit "."] s).val.2 := by
  rcases h : (r.run w [lit "clone", url, lit "."] s).val.2 with _ | e <;> simp [repo.InitFrom, h]

theorem InitFrom_env (url : GoString) :
    (r.InitFrom w url s).env = (r.run w [lit "clone", url, lit "."] s).env := by
  rcases h : (r.run w [lit "clone", url, lit "."] s).val.2 with _ | e <;> simp [repo.InitFrom, h]

theorem InitFrom_events (url : GoString) :
    (r.InitFrom w url s).events =
      Event.log .info (lit "cloning " ++ url ++ lit " into " ++ r.Path) ::
        (r.run w [lit "clone", url, lit "."] s).events ++
        (if (r.run w [lit "clone", url, lit "."] s).val.2 = none then
          [Event.log .info (lit "clone finished")]
         else []) := by
  rcases h : (r.run w [lit "clone", url, lit "."] s).val.2 with _ | e <;> simp [repo.InitFrom, h]

theorem Fetch_val (remote branch : GoString) :
    (r.Fetch w remote branch s).val = (r.run w [lit "fetch", remote, branch] s).val.2 := rfl

theorem Fetch_env (remote branch : GoString) :
    (r.Fetch w remote branch s).env = (r.run w [lit "fetch", remote, branch] s).env := rfl

theorem Fetch_events (remote branch : GoString) :
    (r.Fetch w remote branch s).events =
      Event.log .debug (lit "fetching " ++ remote ++ lit " " ++ branch) ::
        (r.run w [lit "fetch", remote, branch] s).events := rfl

theorem Checkout_val (rev : GoString) :
    (r.Checkout w rev s).val = (r.run w [lit "checkout", rev] s).val.2 := by
  rcases h : (r.run w [lit "checkout", rev] s).val.2 with _ | e <;> simp [repo.Checkout, h]

theorem Checkout_env (rev : GoString) :
    (r.Checkout w rev s).env = (r.run w [lit "checkout", rev] s).env := by
  rcases h : (r.run w [lit "checkout", rev] s).val.2 with _ | e <;> simp [repo.Checkout, h]

theorem Checkout_events (rev : GoString) :
    (r.Checkout w rev s).events =
      Event.log .info (lit "checking out " ++ rev) ::
        (r.run w [lit "checkout", rev] s).events ++
        (if (r.run w [lit "checkout", rev] s).val.2 = none then
          [Event.log .info (lit "synced to revision " ++ rev)]
         else []) := by
  rcases h : (r.run w [lit "checkout", rev] s).val.2 with _ | e <;> simp [repo.Checkout, h]

theorem revision_err (target : GoString) :
    (r.revision w target s).val.2 = (r.run w [lit "rev-parse", target] s).val.2 := by
  rcases h : (r.run w [lit "rev-parse", target] s).val.2 with _ | e <;> simp [repo.revision, h]

theorem revision_env (target : GoString) :
    (r.revision w target s).env = (r.run w [lit "rev-parse", target] s).env := by
  rcases h : (r.run w [lit "rev-parse", target] s).val.2 with _ | e <;> simp [repo.revision, h]

theorem revision_rev (target : GoString) :
    (r.revision w target s).val.1 =
      if (r.run w [lit "rev-parse", target] s).val.2 = none then
        bytesTrim (r.run w [lit "rev-parse", target] s).val.1 newline
      else [] := by
  rcases h : (r.run w [lit "rev-parse", target] s).val.2 with _ | e <;> simp [repo.revision, h]

theorem revision_events (target : GoString) :
    (r.revision w target s).events =
      Event.log .debug (lit "getting revision for " ++ target) ::
        (r.run w [lit "rev-parse", target] s).events ++
        (if (r.run w [lit "rev-parse", target] s).val.2 = none then
          [Event.log .debug
            (lit "revision for " ++ target ++ lit " is " ++ (r.revision w target s).val.1)]
         else []) := by
  rcases h : (r.run w [lit "rev-parse", target] s).val.2 with _ | e <;> simp [repo.revision, h]

theorem gitCalls_InitFrom (url : GoString) :
    gitCalls (r.InitFrom w url s).events = [runArgv r [lit "clone", url, lit "."]] := by
  rw [InitFrom_events]
  split <;> simp [gitCalls_append, gitCalls_log_cons, gitCalls_run, gitCalls_nil]

theorem gitCalls_Fetch (remote branch : GoString) :
    gitCalls (r.Fetch w remote branch s).events = [runArgv r [lit "fetch", remote, branch]] := by
  rw [Fetch_events, gitCalls_log_cons, gitCalls_run]

theorem gitCalls_Checkout (rev : GoString) :
    gitCalls (r.Checkout w rev s).events = [runArgv r [lit "checkout", rev]] := by
  rw [Checkout_events]
  split <;> simp [gitCalls_append, gitCalls_log_cons, gitCalls_run, gitCalls_nil]

theorem gitCalls_revision (target : GoString) :
    gitCalls (r.revision w target s).events = [runArgv r [lit "rev-parse", target]] := by
  rw [revision_events]
  split <;> simp [gitCalls_append, gitCalls_log_cons, gitCalls_run, gitCalls_nil]

end Basic

/-! ## The five paths through `Sync` -/

section SyncPaths

variable {σ : Type} (w : World σ) (r : repo) (s : σ)

theorem Sync_of_fetch_error (e : GoError) (hf : (fetchStep w r s).val = some e) :
    r.Sync w s =
      { val := some e, env := (fetchStep w r s).env, events := (fetchStep w r s).events } := by
  simp only [fetchStep] at hf
  simp [repo.Sync, hf]

theorem Sync_of_revision_error (e : GoError)
    (hf : (fetchStep w r s).val = none) (hl : (localStep w r s).val.2 = some e) :
    r.Sync w s =
      { val := some e, env := (localStep w r s).env,
        events := (fetchStep w r s).events ++ (localStep w r s).events } := by
  simp only [fetchStep, localStep] at hf hl
  simp [repo.Sync, hf, hl]

theorem Sync_of_remote_error (e : GoError)
    (hf : (fetchStep w r s).val = none) (hl : (localStep w r s).val.2 = none)
    (hm : (remoteStep w r s).val.2 = some e) :
    r.Sync w s =
      { val := some e, env := (remoteStep w r s).env,
        events := (fetchStep w r s).events ++ (localStep w r s).events ++
          (remoteStep w r s).events } := by
  simp only [fetchStep, localStep, remoteStep] at hf hl hm
  simp [repo.Sync, hf, hl, hm]

theorem Sync_of_equal
    (hf : (fetchStep w r s).val = none) (hl : (localStep w r s).val.2 = none)
    (hm : (remoteStep w r s).val.2 = none)
    (heq : (localStep w r s).val.1 = (remoteStep w r s).val.1) :
    r.Sync w s =
      { val := none, env := (remoteStep w r s).env,
        events := (fetchStep w r s).events ++ (localStep w r s).events ++
          (remoteStep w r s).events ++
          [Event.log .debug (lit "the repo is in sync with remote")] } := by
  simp only [fetchStep, localStep, remoteStep] at hf hl hm heq
  simp [repo.Sync, hf, hl, hm, heq]

theorem Sync_of_differ
    (hf : (fetchStep w r s).val = none) (hl : (localStep w r s).val.2 = none)
    (hm : (remoteStep w r s).val.2 = none)
    (hne : (localStep w r s).val.1 ≠ (remoteStep w r s).val.1) :
    r.Sync w s =
      { val := (checkoutStep w r s).val, env := (checkoutStep w r s).env,
        events := (fetchStep w r s).events ++ (localStep w r s).events ++
          (remoteStep w r s).events ++
          [Event.log .info (lit "the repo is out of sync with remote")] ++
          (checkoutStep w r s).events } := by
  simp only [fetchStep, localStep, remoteStep] at hf hl hm hne
  simp [repo.Sync, hf, hl, hm, hne]

theorem gitCalls_fetchStep :
    gitCalls (fetchStep w r s).events = [runArgv r [lit "fetch", r.Remote, r.Branch]] :=
  gitCalls_Fetch w r s r.Remote r.Branch

theorem gitCalls_localStep :
    gitCalls (localStep w r s).events = [runArgv r [lit "rev-parse", lit "HEAD"]] :=
  gitCalls_revision w r _ (lit "HEAD")

theorem gitCalls_remoteStep :
    gitCalls (remoteStep w r s).events =
      [runArgv r [lit "rev-parse", r.Remote ++ lit "/" ++ r.Branch]] :=
  gitCalls_revision w r _ (r.Remote ++ lit "/" ++ r.Branch)

theorem gitCalls_checkoutStep :
    gitCalls (checkoutStep w r s).events =
      [runArgv r [lit "checkout", (remoteStep w r s).val.1]] :=
  gitCalls_Checkout w r _ _

theorem lit_fetch_ne_checkout : lit "fetch" ≠ lit "checkout" := by decide

theorem lit_revparse_ne_checkout : lit "rev-parse" ≠ lit "checkout" := by decide

theorem lit_revparse_ne_fetch : lit "rev-parse" ≠ lit "fetch" := by decide

theorem lit_checkout_ne_fetch : lit "checkout" ≠ lit "fetch" := by decide

theorem lit_checkout_ne_revparse : lit "checkout" ≠ lit "rev-parse" := by decide

theorem lit_fetch_ne_revparse : lit "fetch" ≠ lit "rev-parse" := by decide

end SyncPaths

/-! ## Sync: the contract of one call and of repeated calls -/

section SyncContract

variable {σ : Type} (w : World σ) (r : repo) (s : σ)

theorem checkoutCalls_eq (ev : List Event) (l : List (List GoString)) (h : gitCalls ev = l) :
    checkoutCalls ev =
      l.filterMap fun argv =>
        match argv with
        | [_, _, sub, rev] => if sub = lit "checkout" then some rev else none
        | _ => none := by
  rw [checkoutCalls, h]

theorem fetchCalls_eq (ev : List Event) (l : List (List GoString)) (h : gitCalls ev = l) :
    fetchCalls ev =
      l.filterMap fun argv =>
        match argv with
        | [_, _, sub, remote, branch] =>
            if sub = lit "fetch" then some (remote, branch) else none
        | _ => none := by
  rw [fetchCalls, h]

theorem revParseCalls_eq (ev : List Event) (l : List (List GoString)) (h : gitCalls ev = l) :
    revParseCalls ev =
      l.filterMap fun argv =>
        match argv with
        | [_, _, sub, target] => if sub = lit "rev-parse" then some target else none
        | _ => none := by
  rw [revParseCalls, h]

/-- C1: when the fetch and both revision lookups succeed and the local revision
differs from the remote one, `Sync` runs `Checkout` exactly once, on the remote
revision, after the three other steps, and returns what that `Checkout`
returns; so it reports success exactly when the `Checkout` succeeds. -/
theorem Sync_checks_out_remote_once
    (hf : (fetchStep w r s).val = none) (hl : (localStep w r s).val.2 = none)
    (hm : (remoteStep w r s).val.2 = none)
    (hne : (localStep w r s).val.1 ≠ (remoteStep w r s).val.1) :
    checkoutCalls (r.Sync w s).events = [(remoteStep w r s).val.1] ∧
    gitCalls (r.Sync w s).events =
      [runArgv r [lit "fetch", r.Remote, r.Branch],
       runArgv r [lit "rev-parse", lit "HEAD"],
       runArgv r [lit "rev-parse", r.Remote ++ lit "/" ++ r.Branch],
       checkoutArgv r (remoteStep w r s).val.1] ∧
    (r.Sync w s).events =
      (fetchStep w r s).events ++ (localStep w r s).events ++ (remoteStep w r s).events ++
        [Event.log .info (lit "the repo is out of sync with remote")] ++
        (r.Checkout w (remoteStep w r s).val.1 (remoteStep w r s).env).events ∧
    (r.Sync w s).val = (r.Checkout w (remoteStep w r s).val.1 (remoteStep w r s).env).val ∧
    ((r.Sync w s).val = none ↔
      (r.Checkout w (remoteStep w r s).val.1 (remoteStep w r s).env).val = none) := by
  have hS := Sync_of_differ w r s hf hl hm hne
  have hg : gitCalls (r.Sync w s).events =
      [runArgv r [lit "fetch", r.Remote, r.Branch],
       runArgv r [lit "rev-parse", lit "HEAD"],
       runArgv r [lit "rev-parse", r.Remote ++ lit "/" ++ r.Branch],
       checkoutArgv r (remoteStep w r s).val.1] := by
    rw [hS]
    simp only [gitCalls_append, gitCalls_fetchStep, gitCalls_localStep, gitCalls_remoteStep,
      gitCalls_checkoutStep, gitCalls_log_cons, gitCalls_nil]
    rfl
  refine ⟨?_, hg, ?_, ?_, ?_⟩
  · rw [checkoutCalls_eq _ _ hg]
    simp [runArgv, checkoutArgv, lit_fetch_ne_checkout, lit_revparse_ne_checkout]
  · rw [hS]
  · rw [hS]
  · rw [hS]

/-- Witness of C1: local revision `abc123`, remote revision `def456`, the
checkout succeeds. -/
theorem Sync_checks_out_remote_once_witness :
    checkoutCalls (demo.Sync scripted
        { runs := [([], none), (lit "abc123\n", none), (lit "def456\n", none), ([], none)],
          dirs := [], files := [] }).events = [lit "def456"] ∧
    (demo.Sync scripted
        { runs := [([], none), (lit "abc123\n", none), (lit "def456\n", none), ([], none)],
          dirs := [], files := [] }).val = none := by
  have h := Sync_checks_out_remote_once scripted demo
    { runs := [([], none), (lit "abc123\n", none), (lit "def456\n", none), ([], none)],
      dirs := [], files := [] } (by decide) (by decide) (by decide) (by decide)
  refine ⟨h.1.trans (by decide), h.2.2.2.1.trans (by decide)⟩

theorem syncCalls_succ (n : Nat) :
    syncCalls w r (n + 1) s =
      (((r.Sync w s).val, (r.Sync w s).events) :: (syncCalls w r n (r.Sync w s).env).1,
        (syncCalls w r n (r.Sync w s).env).2) := rfl

theorem syncCalls_env_succ (n : Nat) :
    ∀ s : σ, (syncCalls w r (n + 1) s).2 = (syncCalls w r n (r.Sync w s).env).2 := fun _ => rfl

/-- One call of `Sync` in an in-sync state: success, one fetch, no checkout. -/
theorem Sync_of_InSync (h : InSync w r s) :
    (r.Sync w s).val = none ∧ fetchCalls (r.Sync w s).events = [(r.Remote, r.Branch)] ∧
      checkoutCalls (r.Sync w s).events = [] := by
  obtain ⟨hf, hl, hm, heq⟩ := h
  have hS := Sync_of_equal w r s hf hl hm heq
  have hg : gitCalls (r.Sync w s).events =
      [runArgv r [lit "fetch", r.Remote, r.Branch],
       runArgv r [lit "rev-parse", lit "HEAD"],
       runArgv r [lit "rev-parse", r.Remote ++ lit "/" ++ r.Branch]] := by
    rw [hS]
    simp only [gitCalls_append, gitCalls_fetchStep, gitCalls_localStep, gitCalls_remoteStep,
      gitCalls_log_cons, gitCalls_nil]
    rfl
  refine ⟨by rw [hS], ?_, ?_⟩
  · rw [fetchCalls_eq _ _ hg]
    simp [runArgv]
  · rw [checkoutCalls_eq _ _ hg]
    simp [runArgv, lit_fetch_ne_checkout, lit_revparse_ne_checkout]

/-- C2: if the runner is in sync (fetch and both lookups succeed, equal
revisions) at the start of each of `n` successive calls of `Sync`, then each of
the `n` calls reports success, runs the fetch once and never runs a checkout. -/
theorem Sync_in_sync_repeated (n : Nat)
    (h : ∀ k, k < n → InSync w r (syncCalls w r k s).2) :
    (syncCalls w r n s).1.length = n ∧
    ∀ c ∈ (syncCalls w r n s).1,
      c.1 = none ∧ fetchCalls c.2 = [(r.Remote, r.Branch)] ∧ checkoutCalls c.2 = [] := by
  induction n generalizing s with
  | zero => exact ⟨rfl, fun c hc => by simp [syncCalls] at hc⟩
  | succ n ih =>
    have h0 : InSync w r s := h 0 (Nat.succ_pos n)
    have ht : ∀ k, k < n → InSync w r (syncCalls w r k (r.Sync w s).env).2 := by
      intro k hk
      have := h (k + 1) (Nat.succ_lt_succ hk)
      rwa [syncCalls_env_succ] at this
    obtain ⟨hlen, hall⟩ := ih (r.Sync w s).env ht
    rw [syncCalls_succ]
    refine ⟨by simp [hlen], ?_⟩
    intro c hc
    rcases List.mem_cons.mp hc with rfl | hc
    · exact Sync_of_InSync w r s h0
    · exact hall c hc

/-- Witness of C2: two successive calls, both revisions `abc123` each time. -/
theorem Sync_in_sync_repeated_witness :
    (syncCalls scripted demo 2
        { runs := [([], none), (lit "abc123\n", none), (lit "abc123\n", none),
                   ([], none), (lit "abc123\n", none), (lit "abc123\n", none)],
          dirs := [], files := [] }).1.length = 2 ∧
    ∀ c ∈ (syncCalls scripted demo 2
        { runs := [([], none), (lit "abc123\n", none), (lit "abc123\n", none),
                   ([], none), (lit "abc123\n", none), (lit "abc123\n", none)],
          dirs := [], files := [] }).1,
      c.1 = none ∧ fetchCalls c.2 = [(demo.Remote, demo.Branch)] ∧ checkoutCalls c.2 = [] :=
  Sync_in_sync_repeated scripted demo
    { runs := [([], none), (lit "abc123\n", none), (lit "abc123\n", none),
               ([], none), (lit "abc123\n", none), (lit "abc123\n", none)],
      dirs := [], files := [] } 2 (by decide)

end SyncContract

/-! ## Sync: failures and logging -/

section SyncFailures

variable {σ : Type} (w : World σ) (r : repo) (s : σ)

/-- C3: `Sync` stops at the first failing step and returns its error as it is.
A failing fetch is the only step run; a failing local lookup is preceded by the
fetch only; a failing remote lookup is preceded by the fetch and the local
lookup only; in none of the three cases is there a checkout. -/
theorem Sync_stops_at_first_failure :
    (∀ e, (fetchStep w r s).val = some e →
      (r.Sync w s).val = some e ∧ (r.Sync w s).events = (fetchStep w r s).events ∧
      gitCalls (r.Sync w s).events = [runArgv r [lit "fetch", r.Remote, r.Branch]] ∧
      revParseCalls (r.Sync w s).events = [] ∧ checkoutCalls (r.Sync w s).events = []) ∧
    (∀ e, (fetchStep w r s).val = none → (localStep w r s).val.2 = some e →
      (r.Sync w s).val = some e ∧
      (r.Sync w s).events = (fetchStep w r s).events ++ (localStep w r s).events ∧
      gitCalls (r.Sync w s).events =
        [runArgv r [lit "fetch", r.Remote, r.Branch], runArgv r [lit "rev-parse", lit "HEAD"]] ∧
      revParseCalls (r.Sync w s).events = [lit "HEAD"] ∧
      checkoutCalls (r.Sync w s).events = []) ∧
    (∀ e, (fetchStep w r s).val = none → (localStep w r s).val.2 = none →
      (remoteStep w r s).val.2 = some e →
      (r.Sync w s).val = some e ∧
      (r.Sync w s).events =
        (fetchStep w r s).events ++ (localStep w r s).events ++ (remoteStep w r s).events ∧
      gitCalls (r.Sync w s).events =
        [runArgv r [lit "fetch", r.Remote, r.Branch], runArgv r [lit "rev-parse", lit "HEAD"],
         runArgv r [lit "rev-parse", r.Remote ++ lit "/" ++ r.Branch]] ∧
      checkoutCalls (r.Sync w s).events = []) := by
  refine ⟨?_, ?_, ?_⟩
  · intro e hf
    have hS := Sync_of_fetch_error w r s e hf
    have hg : gitCalls (r.Sync w s).events = [runArgv r [lit "fetch", r.Remote, r.Branch]] := by
      rw [hS]
      exact gitCalls_fetchStep w r s
    refine ⟨by rw [hS], by rw [hS], hg, ?_, ?_⟩
    · rw [revParseCalls_eq _ _ hg]
      simp [runArgv]
    · rw [checkoutCalls_eq _ _ hg]
      simp [runArgv]
  · intro e hf hl
    have hS := Sync_of_revision_error w r s e hf hl
    have hg : gitCalls (r.Sync w s).events =
        [runArgv r [lit "fetch", r.Remote, r.Branch],
         runArgv r [lit "rev-parse", lit "HEAD"]] := by
      rw [hS]
      simp only [gitCalls_append, gitCalls_fetchStep, gitCalls_localStep]
      rfl
    refine ⟨by rw [hS], by rw [hS], hg, ?_, ?_⟩
    · rw [revParseCalls_eq _ _ hg]
      simp [runArgv]
    · rw [checkoutCalls_eq _ _ hg]
      simp [runArgv, lit_revparse_ne_checkout]
  · intro e hf hl hm
    have hS := Sync_of_remote_error w r s e hf hl hm
    have hg : gitCalls (r.Sync w s).events =
        [runArgv r [lit "fetch", r.Remote, r.Branch], runArgv r [lit "rev-parse", lit "HEAD"],
         runArgv r [lit "rev-parse", r.Remote ++ lit "/" ++ r.Branch]] := by
      rw [hS]
      simp only [gitCalls_append, gitCalls_fetchStep, gitCalls_localStep, gitCalls_remoteStep]
      rfl
    refine ⟨by rw [hS], by rw [hS], hg, ?_⟩
    rw [checkoutCalls_eq _ _ hg]
    simp [runArgv, lit_revparse_ne_checkout]

/-- Witness of C3: a failing fetch, a failing local lookup and a failing remote
lookup, each returned as the `cmdErr` built by the runner. -/
theorem Sync_stops_at_first_failure_witness :
    ((demo.Sync scripted { runs := [(lit "fatal\n", some exit128)], dirs := [], files := [] }).val
        = some (.cmdErr (.os exit128) (lit "git [-C /tmp/r fetch origin master]") (lit "fatal\n")) ∧
      gitCalls (demo.Sync scripted
          { runs := [(lit "fatal\n", some exit128)], dirs := [], files := [] }).events
        = [[lit "-C", lit "/tmp/r", lit "fetch", lit "origin", lit "master"]]) ∧
    ((demo.Sync scripted
          { runs := [([], none), (lit "fatal\n", some exit128)], dirs := [], files := [] }).val
        = some (.cmdErr (.os exit128) (lit "git [-C /tmp/r rev-parse HEAD]") (lit "fatal\n")) ∧
      checkoutCalls (demo.Sync scripted
          { runs := [([], none), (lit "fatal\n", some exit128)], dirs := [], files := [] }).events
        = []) ∧
    ((demo.Sync scripted
          { runs := [([], none), (lit "abc123\n", none), (lit "fatal\n", some exit128)],
            dirs := [], files := [] }).val
        = some (.cmdErr (.os exit128) (lit "git [-C /tmp/r rev-parse origin/master]")
            (lit "fatal\n")) ∧
      checkoutCalls (demo.Sync scripted
          { runs := [([], none), (lit "abc123\n", none), (lit "fatal\n", some exit128)],
            dirs := [], files := [] }).events
        = []) := by
  have h1 := (Sync_stops_at_first_failure scripted demo
    { runs := [(lit "fatal\n", some exit128)], dirs := [], files := [] }).1
    (.cmdErr (.os exit128) (lit "git [-C /tmp/r fetch origin master]") (lit "fatal\n"))
    (by decide)
  have h2 := (Sync_stops_at_first_failure scripted demo
    { runs := [([], none), (lit "fatal\n", some exit128)], dirs := [], files := [] }).2.1
    (.cmdErr (.os exit128) (lit "git [-C /tmp/r rev-parse HEAD]") (lit "fatal\n"))
    (by decide) (by decide)
  have h3 := (Sync_stops_at_first_failure scripted demo
    { runs := [([], none), (lit "abc123\n", none), (lit "fatal\n", some exit128)],
      dirs := [], files := [] }).2.2
    (.cmdErr (.os exit128) (lit "git [-C /tmp/r rev-parse origin/master]") (lit "fatal\n"))
    (by decide) (by decide) (by decide)
  exact ⟨⟨h1.1, h1.2.2.1.trans (by decide)⟩, ⟨h2.1, h2.2.2.2.2⟩, ⟨h3.1, h3.2.2.2⟩⟩

/-- C9 as stated fails: with equal revisions the log calls made during `Sync`
are those of `Fetch`, `Revision` and `RemoteRevision` followed by a debug
message that `Sync` writes itself. -/
theorem Sync_logs_on_its_own :
    logCalls (demo.Sync scripted
        { runs := [([], none), (lit "abc123\n", none), (lit "abc123\n", none)],
          dirs := [], files := [] }).events =
      logCalls (calleeEvents scripted demo
        { runs := [([], none), (lit "abc123\n", none), (lit "abc123\n", none)],
          dirs := [], files := [] }) ++
        [(Level.debug, lit "the repo is in sync with remote")] ∧
    logCalls (demo.Sync scripted
        { runs := [([], none), (lit "abc123\n", none), (lit "abc123\n", none)],
          dirs := [], files := [] }).events ≠
      logCalls (calleeEvents scripted demo
        { runs := [([], none), (lit "abc123\n", none), (lit "abc123\n", none)],
          dirs := [], files := [] }) := by
  decide

/-- C9, amended: on the three failure paths the events of `Sync` are exactly
those of the operations it calls; when the fetch and both lookups succeed,
`Sync` adds exactly one log call of its own after them: the debug message
"the repo is in sync with remote" when the revisions are equal, the info
message "the repo is out of sync with remote", before the events of `Checkout`,
when they differ. -/
theorem Sync_own_log_calls :
    (∀ e, (fetchStep w r s).val = some e →
      (r.Sync w s).events = (fetchStep w r s).events) ∧
    (∀ e, (fetchStep w r s).val = none → (localStep w r s).val.2 = some e →
      (r.Sync w s).events = (fetchStep w r s).events ++ (localStep w r s).events) ∧
    (∀ e, (fetchStep w r s).val = none → (localStep w r s).val.2 = none →
      (remoteStep w r s).val.2 = some e →
      (r.Sync w s).events =
        (fetchStep w r s).events ++ (localStep w r s).events ++ (remoteStep w r s).events) ∧
    ((fetchStep w r s).val = none → (localStep w r s).val.2 = none →
      (remoteStep w r s).val.2 = none → (localStep w r s).val.1 = (remoteStep w r s).val.1 →
      (r.Sync w s).events =
        (fetchStep w r s).events ++ (localStep w r s).events ++ (remoteStep w r s).events ++
          [Event.log .debug (lit "the repo is in sync with remote")]) ∧
    ((fetchStep w r s).val = none → (localStep w r s).val.2 = none →
      (remoteStep w r s).val.2 = none → (localStep w r s).val.1 ≠ (remoteStep w r s).val.1 →
      (r.Sync w s).events =
        (fetchStep w r s).events ++ (localStep w r s).events ++ (remoteStep w r s).events ++
          [Event.log .info (lit "the repo is out of sync with remote")] ++
          (checkoutStep w r s).events) := by
  refine ⟨?_, ?_, ?_, ?_, ?_⟩
  · intro e hf
    rw [Sync_of_fetch_error w r s e hf]
  · intro e hf hl
    rw [Sync_of_revision_error w r s e hf hl]
  · intro e hf hl hm
    rw [Sync_of_remote_error w r s e hf hl hm]
  · intro hf hl hm heq
    rw [Sync_of_equal w r s hf hl hm heq]
  · intro hf hl hm hne
    rw [Sync_of_differ w r s hf hl hm hne]

/-- Witness of the amended C9: the in-sync path and the out-of-sync path. -/
theorem Sync_own_log_calls_witness :
    logCalls (demo.Sync scripted
        { runs := [([], none), (lit "abc123\n", none), (lit "abc123\n", none)],
          dirs := [], files := [] }).events =
      [(Level.debug, lit "fetching origin master"),
       (Level.debug, lit "running command: git [-C /tmp/r fetch origin master]"),
       (Level.debug, lit "getting revision for HEAD"),
       (Level.debug, lit "running command: git [-C /tmp/r rev-parse HEAD]"),
       (Level.debug, lit "revision for HEAD is abc123"),
       (Level.debug, lit "getting revision for origin/master"),
       (Level.debug, lit "running command: git [-C /tmp/r rev-parse origin/master]"),
       (Level.debug, lit "revision for origin/master is abc123"),
       (Level.debug, lit "the repo is in sync with remote")] ∧
    logCalls (demo.Sync scripted
        { runs := [([], none), (lit "abc123\n", none), (lit "def456\n", none), ([], none)],
          dirs := [], files := [] }).events =
      [(Level.debug, lit "fetching origin master"),
       (Level.debug, lit "running command: git [-C /tmp/r fetch origin master]"),
       (Level.debug, lit "getting revision for HEAD"),
       (Level.debug, lit "running command: git [-C /tmp/r rev-parse HEAD]"),
       (Level.debug, lit "revision for HEAD is abc123"),
       (Level.debug, lit "getting revision for origin/master"),
       (Level.debug, lit "running command: git [-C /tmp/r rev-parse origin/master]"),
       (Level.debug, lit "revision for origin/master is def456"),
       (Level.info, lit "the repo is out of sync with remote"),
       (Level.info, lit "checking out def456"),
       (Level.debug, lit "running command: git [-C /tmp/r checkout def456]"),
       (Level.info, lit "synced to revision def456")] := by
  have h1 := (Sync_own_log_calls scripted demo
    { runs := [([], none), (lit "abc123\n", none), (lit "abc123\n", none)],
      dirs := [], files := [] }).2.2.2.1 (by decide) (by decide) (by decide) (by decide)
  have h2 := (Sync_own_log_calls scripted demo
    { runs := [([], none), (lit "abc123\n", none), (lit "def456\n", none), ([], none)],
      dirs := [], files := [] }).2.2.2.2 (by decide) (by decide) (by decide) (by decide)
  exact ⟨(congrArg logCalls h1).trans (by decide), (congrArg logCalls h2).trans (by decide)⟩

end SyncFailures

/-! ## Startup -/

section Startup

variable {σ : Type} (w : World σ) (cfg : Config) (s : σ)

/-- C5: when `Valid` reports no repository and no filesystem error, and the
bootstrap URL is empty, the startup sequence aborts with `errInvalidRepo`: one
critical message, `os.Exit(1)`, no `git` run, no directory creation, and the
polling loop is not entered. -/
theorem main_aborts_without_bootstrap
    (hv : (NewRepo cfg.path cfg.remote cfg.branch).Valid w s = (false, none))
    (hi : cfg.initFrom = []) :
    (main w cfg s).val = .exited 1 ∧ (main w cfg s).val ≠ .polling ∧
    (main w cfg s).events = abort .errInvalidRepo ∧
    (main w cfg s).events =
      [Event.log .critical
          (lit "aborting. error: no valid repository found in the specified path"),
        Event.exit 1] ∧
    gitCalls (main w cfg s).events = [] ∧ (main w cfg s).env = s := by
  have hm : main w cfg s = { val := .exited 1, env := s, events := abort .errInvalidRepo } := by
    simp [main, hv, hi]
  have ha : abort .errInvalidRepo =
      [Event.log .critical
          (lit "aborting. error: no valid repository found in the specified path"),
        Event.exit 1] := by decide
  rw [hm]
  refine ⟨rfl, by simp, rfl, ha, ?_, rfl⟩
  simp only [ha]
  rfl

/-- Witness of C5: nothing exists on disk and no bootstrap URL is given. -/
theorem main_aborts_without_bootstrap_witness :
    (main scripted plainCfg { runs := [], dirs := [], files := [] }).val = .exited 1 ∧
    gitCalls (main scripted plainCfg { runs := [], dirs := [], files := [] }).events = [] :=
  have h := main_aborts_without_bootstrap scripted plainCfg
    { runs := [], dirs := [], files := [] } (by decide) (by decide)
  ⟨h.1, h.2.2.2.2.1⟩

/-- The startup sequence enters the polling loop whatever `InitFrom` returns:
its result is dropped at line 63 of `main.go`. -/
theorem main_polls_after_InitFrom
    (hv : (NewRepo cfg.path cfg.remote cfg.branch).Valid w s = (false, none))
    (hi : cfg.initFrom ≠ []) (hd : dirExists w cfg.path s = (true, none)) :
    (main w cfg s).val = .polling ∧
    (main w cfg s).events =
      ((NewRepo cfg.path cfg.remote cfg.branch).InitFrom w cfg.initFrom s).events := by
  simp [main, hv, hi, hd]

/-- C4, the code at a failing input: the directory `/tmp/r` exists without
`.git`, a bootstrap URL is given and the clone exits with an error. `InitFrom`
returns that error, yet the startup sequence logs no critical message, does not
exit and enters the polling loop. -/
theorem main_ignores_clone_failure :
    ((NewRepo bootCfg.path bootCfg.remote bootCfg.branch).InitFrom scripted bootCfg.initFrom
        { runs := [(lit "fatal: repository not found\n", some exit128)],
          dirs := [lit "/tmp/r"], files := [] }).val =
      some (.cmdErr (.os exit128) (lit "git [-C /tmp/r clone https://example/repo.git .]")
        (lit "fatal: repository not found\n")) ∧
    (main scripted bootCfg
        { runs := [(lit "fatal: repository not found\n", some exit128)],
          dirs := [lit "/tmp/r"], files := [] }).val = .polling ∧
    (main scripted bootCfg
        { runs := [(lit "fatal: repository not found\n", some exit128)],
          dirs := [lit "/tmp/r"], files := [] }).events =
      [Event.log .info (lit "cloning https://example/repo.git into /tmp/r"),
       Event.log .debug (lit "running command: git [-C /tmp/r clone https://example/repo.git .]"),
       Event.git [lit "-C", lit "/tmp/r", lit "clone", lit "https://example/repo.git", lit "."]] := by
  decide

end Startup

/-! ## The command runner and the validity check -/

section Runner

variable {σ : Type} (w : World σ) (r : repo) (s : σ)

/-- C6: every operation hands `git` the vector `-C`, the path, then its own
arguments in order; the environment after the operation is the one the runner
returns for that vector. -/
theorem argv_of_every_operation (arg : List GoString) (url remote branch rev : GoString) :
    (gitCalls (r.run w arg s).events = [[lit "-C", r.Path] ++ arg] ∧
      (r.run w arg s).env = (w.combinedOutput s ([lit "-C", r.Path] ++ arg)).2) ∧
    (gitCalls (r.InitFrom w url s).events = [[lit "-C", r.Path, lit "clone", url, lit "."]] ∧
      (r.InitFrom w url s).env =
        (w.combinedOutput s [lit "-C", r.Path, lit "clone", url, lit "."]).2) ∧
    (gitCalls (r.Fetch w remote branch s).events =
        [[lit "-C", r.Path, lit "fetch", remote, branch]] ∧
      (r.Fetch w remote branch s).env =
        (w.combinedOutput s [lit "-C", r.Path, lit "fetch", remote, branch]).2) ∧
    (gitCalls (r.Revision w s).events = [[lit "-C", r.Path, lit "rev-parse", lit "HEAD"]] ∧
      (r.Revision w s).env =
        (w.combinedOutput s [lit "-C", r.Path, lit "rev-parse", lit "HEAD"]).2) ∧
    (gitCalls (r.RemoteRevision w s).events =
        [[lit "-C", r.Path, lit "rev-parse", r.Remote ++ lit "/" ++ r.Branch]] ∧
      (r.RemoteRevision w s).env =
        (w.combinedOutput s
          [lit "-C", r.Path, lit "rev-parse", r.Remote ++ lit "/" ++ r.Branch]).2) ∧
    (gitCalls (r.Checkout w rev s).events = [[lit "-C", r.Path, lit "checkout", rev]] ∧
      (r.Checkout w rev s).env =
        (w.combinedOutput s [lit "-C", r.Path, lit "checkout", rev]).2) := by
  refine ⟨⟨gitCalls_run w r s arg, run_env w r s arg⟩, ⟨gitCalls_InitFrom w r s url, ?_⟩,
    ⟨gitCalls_Fetch w r s remote branch, ?_⟩, ⟨gitCalls_revision w r s _, ?_⟩,
    ⟨gitCalls_revision w r s _, ?_⟩, ⟨gitCalls_Checkout w r s rev, ?_⟩⟩
  · rw [InitFrom_env, run_env]; rfl
  · rw [Fetch_env, run_env]; rfl
  · rw [repo.Revision, revision_env, run_env]; rfl
  · rw [repo.RemoteRevision, revision_env, run_env]; rfl
  · rw [Checkout_env, run_env]; rfl

/-- The scenario of C6: with path `/tmp/r`, `InitFrom` on
`https://example/repo.git` runs `git` on `-C /tmp/r clone https://example/repo.git .`,
and the other operations on their own vectors. -/
theorem argv_of_every_operation_witness :
    gitCalls (demo.InitFrom scripted (lit "https://example/repo.git")
        { runs := [], dirs := [], files := [] }).events =
      [[lit "-C", lit "/tmp/r", lit "clone", lit "https://example/repo.git", lit "."]] ∧
    gitCalls (demo.Fetch scripted (lit "origin") (lit "master")
        { runs := [], dirs := [], files := [] }).events =
      [[lit "-C", lit "/tmp/r", lit "fetch", lit "origin", lit "master"]] ∧
    gitCalls (demo.RemoteRevision scripted { runs := [], dirs := [], files := [] }).events =
      [[lit "-C", lit "/tmp/r", lit "rev-parse", lit "origin/master"]] :=
  have h := argv_of_every_operation scripted demo { runs := [], dirs := [], files := [] }
    [] (lit "https://example/repo.git") (lit "origin") (lit "master") (lit "def456")
  ⟨h.2.1.1, h.2.2.1.1, h.2.2.2.2.1.1.trans (by decide)⟩

theorem infix_intercalate (sep a : GoString) :
    ∀ xs : List GoString, a ∈ xs → List.IsInfix a (sep.intercalate xs)
  | [], h => by simp at h
  | [x], h => by
      have hx : a = x := by simpa using h
      subst hx
      simp [List.intercalate]
  | x :: y :: zs, h => by
      have hrec : sep.intercalate (x :: y :: zs) = x ++ (sep ++ sep.intercalate (y :: zs)) := by
        simp [List.intercalate]
      rw [hrec]
      rcases List.mem_cons.mp h with rfl | h
      · exact (List.prefix_append _ _).isInfix
      · exact (infix_intercalate sep a (y :: zs) h).trans
          (((List.suffix_append sep _).trans (List.suffix_append x _)).isInfix)

/-- C7: when the `git` run fails, `run` returns the captured output and a
`cmdErr` holding the underlying error, the command line `git [-C path args...]`
and the output; its message is the underlying message, the command line and the
output in that order, so it contains the command line, `-C`, the path, each
argument and the output verbatim. -/
theorem run_failure_message (arg : List GoString) (err : OsError)
    (h : (w.combinedOutput s ([lit "-C", r.Path] ++ arg)).1.2 = some err) :
    (r.run w arg s).val =
      ((w.combinedOutput s ([lit "-C", r.Path] ++ arg)).1.1,
        some (.cmdErr (.os err)
          (lit "git [" ++ (lit " ").intercalate ([lit "-C", r.Path] ++ arg) ++ lit "]")
          (w.combinedOutput s ([lit "-C", r.Path] ++ arg)).1.1)) ∧
    ∀ e, (r.run w arg s).val.2 = some e →
      e.Error =
        err.msg ++ lit " \nwhile running command [" ++
          (lit "git [" ++ (lit " ").intercalate ([lit "-C", r.Path] ++ arg) ++ lit "]") ++
          lit "] \noutput was [" ++ (w.combinedOutput s ([lit "-C", r.Path] ++ arg)).1.1 ++
          lit "]" ∧
      List.IsInfix (lit "git [" ++ (lit " ").intercalate ([lit "-C", r.Path] ++ arg) ++ lit "]")
        e.Error ∧
      List.IsInfix (w.combinedOutput s ([lit "-C", r.Path] ++ arg)).1.1 e.Error ∧
      ∀ a ∈ lit "git" :: lit "-C" :: r.Path :: arg, List.IsInfix a e.Error := by
  have hc : runCmdStr r arg =
      lit "git [" ++ (lit " ").intercalate ([lit "-C", r.Path] ++ arg) ++ lit "]" := by
    have h0 : lit "git [" = lit "git " ++ lit "[" := by decide
    simp only [runCmdStr, fmtStrings, runArgv, h0, List.append_assoc, List.cons_append,
      List.nil_append]
  have hv : (r.run w arg s).val.2 =
      some (.cmdErr (.os err)
        (lit "git [" ++ (lit " ").intercalate ([lit "-C", r.Path] ++ arg) ++ lit "]")
        (w.combinedOutput s ([lit "-C", r.Path] ++ arg)).1.1) := by
    have h1 : (w.combinedOutput s (runArgv r arg)).1.2 = some err := h
    rw [run_err, h1, hc]
    rfl
  have ho : (r.run w arg s).val.1 = (w.combinedOutput s ([lit "-C", r.Path] ++ arg)).1.1 :=
    run_out w r s arg
  refine ⟨Prod.ext ho hv, ?_⟩
  intro e he
  rw [hv] at he
  have he2 := (Option.some.inj he).symm
  subst he2
  have hcmd : List.IsInfix
      (lit "git [" ++ (lit " ").intercalate ([lit "-C", r.Path] ++ arg) ++ lit "]")
      (GoError.cmdErr (.os err)
        (lit "git [" ++ (lit " ").intercalate ([lit "-C", r.Path] ++ arg) ++ lit "]")
        (w.combinedOutput s ([lit "-C", r.Path] ++ arg)).1.1).Error :=
    ⟨err.msg ++ lit " \nwhile running command [",
      lit "] \noutput was [" ++ (w.combinedOutput s ([lit "-C", r.Path] ++ arg)).1.1 ++ lit "]",
      by simp [GoError.Error, List.append_assoc]⟩
  refine ⟨rfl, hcmd, ?_, ?_⟩
  · exact ⟨err.msg ++ lit " \nwhile running command [" ++
        (lit "git [" ++ (lit " ").intercalate ([lit "-C", r.Path] ++ arg) ++ lit "]") ++
        lit "] \noutput was [", lit "]", by simp [GoError.Error, List.append_assoc]⟩
  · intro a ha
    refine List.IsInfix.trans ?_ hcmd
    rcases List.mem_cons.mp ha with rfl | ha
    · have h0 : lit "git [" = lit "git" ++ lit " [" := by decide
      rw [h0]
      exact ⟨[], lit " [" ++ (lit " ").intercalate ([lit "-C", r.Path] ++ arg) ++ lit "]",
        by simp [List.append_assoc]⟩
    · have hi := infix_intercalate (lit " ") a ([lit "-C", r.Path] ++ arg) ha
      exact hi.trans ⟨lit "git [", lit "]", rfl⟩

/-- Witness of C7: a failing fetch with output `fatal`. -/
theorem run_failure_message_witness :
    (demo.run scripted [lit "fetch", lit "origin", lit "master"]
        { runs := [(lit "fatal\n", some exit128)], dirs := [], files := [] }).val =
      (lit "fatal\n",
        some (.cmdErr (.os exit128) (lit "git [-C /tmp/r fetch origin master]") (lit "fatal\n"))) ∧
    (GoError.cmdErr (.os exit128) (lit "git [-C /tmp/r fetch origin master]")
        (lit "fatal\n")).Error =
      lit ("exit status 128 \nwhile running command [git [-C /tmp/r fetch origin master]] " ++
        "\noutput was [fatal\n]") := by
  have h := run_failure_message scripted demo
    { runs := [(lit "fatal\n", some exit128)], dirs := [], files := [] }
    [lit "fetch", lit "origin", lit "master"] exit128 (by decide)
  exact ⟨h.1.trans (by decide), by decide⟩

/-- C8: `Valid` looks at the entry `.git` under the path. It returns true and
no error exactly when the stat succeeds on a directory; false and no error
exactly when the entry is missing or is not a directory; false and the stat
error exactly when the stat fails otherwise. So it returns an error if and only
if the stat fails for a reason other than a missing entry. -/
theorem Valid_by_stat_outcome :
    (r.Valid w s = (true, none) ↔
      w.stat s (w.join r.Path (lit ".git")) = .ok { isDir := true }) ∧
    (r.Valid w s = (false, none) ↔
      (w.stat s (w.join r.Path (lit ".git")) = .ok { isDir := false } ∨
        ∃ e, w.stat s (w.join r.Path (lit ".git")) = .error e ∧ e.notExist = true)) ∧
    (∀ e, r.Valid w s = (false, some (.os e)) ↔
      (w.stat s (w.join r.Path (lit ".git")) = .error e ∧ e.notExist = false)) ∧
    ((r.Valid w s).2 ≠ none ↔
      ∃ e, w.stat s (w.join r.Path (lit ".git")) = .error e ∧ e.notExist = false) ∧
    (∀ e, (r.Valid w s).2 = some e → (r.Valid w s).1 = false ∧
      ∃ oe, e = .os oe ∧ w.stat s (w.join r.Path (lit ".git")) = .error oe) := by
  unfold repo.Valid dirExists pathExists
  rcases hst : w.stat s (w.join r.Path (lit ".git")) with e | ⟨d⟩
  · rcases hne : e.notExist with _ | _ <;> simp [hne]
  · cases d; simp

/-- The three outcomes of C8 on concrete filesystems: `.git` is a directory;
`.git` is missing; the stat fails with a permission error. -/
theorem Valid_by_stat_outcome_witness :
    demo.Valid scripted { runs := [], dirs := [lit "/tmp/r/.git"], files := [] } = (true, none) ∧
    demo.Valid scripted { runs := [], dirs := [], files := [] } = (false, none) ∧
    demo.Valid denied { runs := [], dirs := [], files := [] } = (false, some (.os eacces)) :=
  ⟨(Valid_by_stat_outcome scripted demo
      { runs := [], dirs := [lit "/tmp/r/.git"], files := [] }).1.mpr (by rfl),
    (Valid_by_stat_outcome scripted demo
      { runs := [], dirs := [], files := [] }).2.1.mpr (Or.inr ⟨enoent, by rfl, rfl⟩),
    ((Valid_by_stat_outcome denied demo
      { runs := [], dirs := [], files := [] }).2.2.1 eacces).mpr ⟨rfl, rfl⟩⟩

end Runner

/-! ## Revisions are newline-trimmed outputs -/

section Trim

theorem rdropWhile_append_rtakeWhile (p : Byte → Bool) (l : List Byte) :
    l.rdropWhile p ++ l.rtakeWhile p = l := by
  simp only [List.rdropWhile, List.rtakeWhile]
  rw [← List.reverse_append, List.takeWhile_append_dropWhile, List.reverse_reverse]

theorem rdropWhile_append_of_all (p : Byte → Bool) (l post : List Byte)
    (h : ∀ b ∈ post, p b) : (l ++ post).rdropWhile p = l.rdropWhile p := by
  simp only [List.rdropWhile, List.reverse_append]
  rw [List.dropWhile_append_of_pos (by simpa using h)]

theorem rdropWhile_append_left (p : Byte → Bool) (pre l : List Byte)
    (h : l.rdropWhile p ≠ []) : (pre ++ l).rdropWhile p = pre ++ l.rdropWhile p := by
  simp only [List.rdropWhile, List.reverse_append] at h ⊢
  rw [List.dropWhile_append]
  have hne : List.dropWhile p l.reverse ≠ [] := by
    intro h0
    exact h (by rw [h0]; rfl)
  have he : (List.dropWhile p l.reverse).isEmpty = false := by
    cases hd : List.dropWhile p l.reverse with
    | nil => exact absurd hd hne
    | cons a t => rfl
  rw [he]
  simp

theorem bytesTrim_decompose (bs : List Byte) (c : Byte) :
    ∃ pre post, (∀ b ∈ pre, b = c) ∧ (∀ b ∈ post, b = c) ∧ bs = pre ++ bytesTrim bs c ++ post := by
  refine ⟨(bs.rdropWhile (fun b => b == c)).takeWhile (fun b => b == c),
    bs.rtakeWhile (fun b => b == c), ?_, ?_, ?_⟩
  · intro b hb
    simpa using List.mem_takeWhile_imp hb
  · intro b hb
    simpa using List.mem_rtakeWhile_imp hb
  · unfold bytesTrim
    rw [List.takeWhile_append_dropWhile, rdropWhile_append_rtakeWhile]

theorem bytesTrim_head (bs : List Byte) (c : Byte) : (bytesTrim bs c).head? ≠ some c := by
  unfold bytesTrim
  intro h
  have hd := List.head?_dropWhile_not (fun b => b == c) (bs.rdropWhile (fun b => b == c))
  rw [h] at hd
  simp at hd

theorem bytesTrim_getLast (bs : List Byte) (c : Byte) : (bytesTrim bs c).getLast? ≠ some c := by
  intro h
  have hne : bytesTrim bs c ≠ [] := by
    intro h0
    rw [h0] at h
    simp at h
  have hsuf : List.IsSuffix (bytesTrim bs c) (bs.rdropWhile (fun b => b == c)) :=
    List.dropWhile_suffix _
  have hne2 : bs.rdropWhile (fun b => b == c) ≠ [] := hsuf.ne_nil hne
  have hlast := hsuf.getLast hne
  have hnot := List.rdropWhile_last_not (fun b => b == c) bs hne2
  rw [List.getLast?_eq_getLast _ hne] at h
  have hc : (bytesTrim bs c).getLast hne = c := Option.some.inj h
  rw [← hlast, hc] at hnot
  simp at hnot

theorem bytesTrim_append_outer (pre x post : List Byte) (c : Byte)
    (hpre : ∀ b ∈ pre, b = c) (hpost : ∀ b ∈ post, b = c) :
    bytesTrim (pre ++ x ++ post) c = bytesTrim x c := by
  unfold bytesTrim
  rw [rdropWhile_append_of_all _ _ _ (by simpa using hpost)]
  by_cases hx : x.rdropWhile (fun b => b == c) = []
  · have hall : ∀ b ∈ pre ++ x, (fun b => b == c) b = true := by
      intro b hb
      rcases List.mem_append.mp hb with hb | hb
      · simpa using hpre b hb
      · exact List.rdropWhile_eq_nil_iff.mp hx b hb
    rw [List.rdropWhile_eq_nil_iff.mpr hall, hx]
  · rw [rdropWhile_append_left _ _ _ hx, List.dropWhile_append_of_pos (by simpa using hpre)]

theorem bytesTrim_of_no_outer (x : List Byte) (c : Byte)
    (hh : x.head? ≠ some c) (hl : x.getLast? ≠ some c) : bytesTrim x c = x := by
  unfold bytesTrim
  have h1 : x.rdropWhile (fun b => b == c) = x := by
    rw [List.rdropWhile_eq_self_iff]
    intro hne hp
    apply hl
    rw [List.getLast?_eq_getLast _ hne]
    simpa using hp
  rw [h1]
  cases x with
  | nil => rfl
  | cons a t =>
    have hac : a ≠ c := by
      intro h0
      exact hh (by simp [h0])
    have hb : (a == c) = false := by simpa using hac
    simp [List.dropWhile, hb]

end Trim

section Revisions

variable {σ : Type} (w : World σ) (r : repo)

theorem revision_of_output (target : GoString) (s : σ) (out : List Byte) (s1 : σ)
    (h : w.combinedOutput s [lit "-C", r.Path, lit "rev-parse", target] = ((out, none), s1)) :
    (r.revision w target s).val = (bytesTrim out newline, none) ∧
      (r.revision w target s).env = s1 := by
  have h0 : w.combinedOutput s (runArgv r [lit "rev-parse", target]) = ((out, none), s1) := h
  have he : (r.run w [lit "rev-parse", target] s).val.2 = none := by
    rw [run_err, h0]
    rfl
  have ho : (r.run w [lit "rev-parse", target] s).val.1 = out := by
    rw [run_out, h0]
  refine ⟨Prod.ext ?_ ?_, ?_⟩
  · rw [revision_rev, if_pos he, ho]
  · rw [revision_err, he]
  · rw [revision_env, run_env, h0]

theorem checkoutCalls_append (a b : List Event) :
    checkoutCalls (a ++ b) = checkoutCalls a ++ checkoutCalls b := by
  simp [checkoutCalls, gitCalls_append, List.filterMap_append]

theorem checkoutCalls_Fetch (s : σ) (remote branch : GoString) :
    checkoutCalls (r.Fetch w remote branch s).events = [] := by
  rw [checkoutCalls_eq _ _ (gitCalls_Fetch w r s remote branch)]
  simp [runArgv]

theorem checkoutCalls_revision (s : σ) (target : GoString) :
    checkoutCalls (r.revision w target s).events = [] := by
  rw [checkoutCalls_eq _ _ (gitCalls_revision w r s target)]
  simp [runArgv, lit_revparse_ne_checkout]

theorem checkoutCalls_Checkout (s : σ) (rev : GoString) :
    checkoutCalls (r.Checkout w rev s).events = [rev] := by
  rw [checkoutCalls_eq _ _ (gitCalls_Checkout w r s rev)]
  simp [runArgv]

theorem checkoutCalls_log (lvl : Level) (m : GoString) :
    checkoutCalls [Event.log lvl m] = [] := rfl

theorem checkoutCalls_Sync (s : σ) :
    checkoutCalls (r.Sync w s).events = [] ∨
      ((remoteStep w r s).val.2 = none ∧
        checkoutCalls (r.Sync w s).events = [(remoteStep w r s).val.1]) := by
  have h1 : checkoutCalls (fetchStep w r s).events = [] := checkoutCalls_Fetch w r s _ _
  have h2 : checkoutCalls (localStep w r s).events = [] := checkoutCalls_revision w r _ _
  have h3 : checkoutCalls (remoteStep w r s).events = [] := checkoutCalls_revision w r _ _
  have h4 : checkoutCalls (checkoutStep w r s).events = [(remoteStep w r s).val.1] :=
    checkoutCalls_Checkout w r _ _
  rcases hf : (fetchStep w r s).val with _ | e
  · rcases hl : (localStep w r s).val.2 with _ | e
    · rcases hm : (remoteStep w r s).val.2 with _ | e
      · by_cases heq : (localStep w r s).val.1 = (remoteStep w r s).val.1
        · left
          rw [Sync_of_equal w r s hf hl hm heq]
          simp only [checkoutCalls_append, h1, h2, h3, checkoutCalls_log, List.append_nil]
        · right
          refine ⟨rfl, ?_⟩
          rw [Sync_of_differ w r s hf hl hm heq]
          simp only [checkoutCalls_append, h1, h2, h3, h4, checkoutCalls_log, List.nil_append]
      · left
        rw [Sync_of_remote_error w r s e hf hl hm]
        simp only [checkoutCalls_append, h1, h2, h3, List.append_nil]
    · left
      rw [Sync_of_revision_error w r s e hf hl]
      simp only [checkoutCalls_append, h1, h2, List.append_nil]
  · left
    rw [Sync_of_fetch_error w r s e hf]
    exact h1

/-- C10: the revision returned after a successful `rev-parse` run is the output
with its leading and trailing newline bytes cut and nothing else changed: the
output is newlines, the revision, newlines; the revision neither begins nor ends
with a newline; and any such split of the output yields the revision, so other
bytes are kept. `Revision` and `RemoteRevision` are this lookup at `HEAD` and at
remote/branch. Hence two outputs that differ only in outer newlines make `Sync`
succeed without a checkout, and a revision handed to `Checkout` by `Sync` never
begins or ends with a newline. -/
theorem revision_is_newline_trimmed_output :
    (∀ (target : GoString) (s : σ) (out : List Byte) (s1 : σ),
      w.combinedOutput s [lit "-C", r.Path, lit "rev-parse", target] = ((out, none), s1) →
      (r.revision w target s).val.2 = none ∧
      (r.revision w target s).val.1 = bytesTrim out newline ∧
      NoOuterNewline (r.revision w target s).val.1 ∧
      (∃ pre post, AllNewlines pre ∧ AllNewlines post ∧
        out = pre ++ (r.revision w target s).val.1 ++ post) ∧
      (∀ pre core post, AllNewlines pre → AllNewlines post → NoOuterNewline core →
        out = pre ++ core ++ post → (r.revision w target s).val.1 = core)) ∧
    (∀ s : σ, r.Revision w s = r.revision w (lit "HEAD") s ∧
      r.RemoteRevision w s = r.revision w (r.Remote ++ lit "/" ++ r.Branch) s) ∧
    (∀ (s s1 s2 : σ) (core pre1 post1 pre2 post2 : List Byte),
      (fetchStep w r s).val = none →
      w.combinedOutput (fetchStep w r s).env [lit "-C", r.Path, lit "rev-parse", lit "HEAD"] =
        ((pre1 ++ core ++ post1, none), s1) →
      w.combinedOutput s1
          [lit "-C", r.Path, lit "rev-parse", r.Remote ++ lit "/" ++ r.Branch] =
        ((pre2 ++ core ++ post2, none), s2) →
      AllNewlines pre1 → AllNewlines post1 → AllNewlines pre2 → AllNewlines post2 →
      (r.Sync w s).val = none ∧ checkoutCalls (r.Sync w s).events = []) ∧
    (∀ s : σ, ∀ rev ∈ checkoutCalls (r.Sync w s).events, NoOuterNewline rev) := by
  refine ⟨?_, fun s => ⟨rfl, rfl⟩, ?_, ?_⟩
  · intro target s out s1 h
    obtain ⟨hv, _⟩ := revision_of_output w r target s out s1 h
    have hrev : (r.revision w target s).val.1 = bytesTrim out newline := by rw [hv]
    refine ⟨by rw [hv], hrev, ?_, ?_, ?_⟩
    · rw [hrev]
      exact ⟨bytesTrim_head out newline, bytesTrim_getLast out newline⟩
    · rw [hrev]
      exact bytesTrim_decompose out newline
    · intro pre core post hpre hpost hcore ho
      rw [hrev, ho, bytesTrim_append_outer pre core post newline hpre hpost]
      exact bytesTrim_of_no_outer core newline hcore.1 hcore.2
  · intro s s1 s2 core pre1 post1 pre2 post2 hf h1 h2 a1 b1 a2 b2
    obtain ⟨hv1, he1⟩ := revision_of_output w r (lit "HEAD") _ _ s1 h1
    have hl : (localStep w r s).val = (bytesTrim (pre1 ++ core ++ post1) newline, none) := hv1
    have hle : (localStep w r s).env = s1 := he1
    have h2b : w.combinedOutput (localStep w r s).env
        [lit "-C", r.Path, lit "rev-parse", r.Remote ++ lit "/" ++ r.Branch] =
        ((pre2 ++ core ++ post2, none), s2) := by rw [hle]; exact h2
    obtain ⟨hv2, _⟩ := revision_of_output w r (r.Remote ++ lit "/" ++ r.Branch) _ _ s2 h2b
    have hm : (remoteStep w r s).val = (bytesTrim (pre2 ++ core ++ post2) newline, none) := hv2
    have heq : (localStep w r s).val.1 = (remoteStep w r s).val.1 := by
      rw [hl, hm]
      simp only [bytesTrim_append_outer pre1 core post1 newline a1 b1,
        bytesTrim_append_outer pre2 core post2 newline a2 b2]
    have hS := Sync_of_equal w r s hf (by rw [hl]) (by rw [hm]) heq
    refine ⟨by rw [hS], ?_⟩
    rcases checkoutCalls_Sync w r s with h | ⟨_, h⟩
    · exact h
    · exfalso
      have hc : checkoutCalls (r.Sync w s).events = [] := by
        rw [hS]
        simp only [checkoutCalls_append, checkoutCalls_log, List.append_nil]
        rw [checkoutCalls_Fetch]
        have e2 : checkoutCalls (localStep w r s).events = [] := checkoutCalls_revision w r _ _
        have e3 : checkoutCalls (remoteStep w r s).events = [] := checkoutCalls_revision w r _ _
        rw [e2, e3]
        rfl
      rw [hc] at h
      exact absurd h (by simp)
  · intro s rev hrev
    rcases checkoutCalls_Sync w r s with h | ⟨hm, h⟩
    · rw [h] at hrev
      exact absurd hrev (by simp)
    · rw [h] at hrev
      have hr : rev = (remoteStep w r s).val.1 := by simpa using hrev
      rw [hr]
      have h1 : (remoteStep w r s).val.2 =
          (r.run w [lit "rev-parse", r.Remote ++ lit "/" ++ r.Branch]
            (localStep w r s).env).val.2 := revision_err w r _ _
      have h2 : (remoteStep w r s).val.1 =
          bytesTrim (r.run w [lit "rev-parse", r.Remote ++ lit "/" ++ r.Branch]
            (localStep w r s).env).val.1 newline := by
        have := revision_rev w r (localStep w r s).env (r.Remote ++ lit "/" ++ r.Branch)
        rw [if_pos (h1 ▸ hm)] at this
        exact this
      rw [h2]
      exact ⟨bytesTrim_head _ newline, bytesTrim_getLast _ newline⟩

/-- Witness of C10: the output `\nabc \r\n\n` gives the revision `abc \r`;
the outputs `abc123\n` and `\nabc123\n\n` cause no checkout; with the
revisions `abc123` and `def456` the checked-out revision has no outer newline. -/
theorem revision_is_newline_trimmed_output_witness :
    (demo.revision scripted (lit "HEAD")
        { runs := [(lit "\nabc \r\n\n", none)], dirs := [], files := [] }).val =
      (lit "abc \r", none) ∧
    ((demo.Sync scripted
        { runs := [([], none), (lit "abc123\n", none), (lit "\nabc123\n\n", none)],
          dirs := [], files := [] }).val = none ∧
      checkoutCalls (demo.Sync scripted
        { runs := [([], none), (lit "abc123\n", none), (lit "\nabc123\n\n", none)],
          dirs := [], files := [] }).events = []) ∧
    NoOuterNewline (lit "def456") := by
  have h := revision_is_newline_trimmed_output scripted demo
  have h1 := h.1 (lit "HEAD")
    { runs := [(lit "\nabc \r\n\n", none)], dirs := [], files := [] }
    (lit "\nabc \r\n\n") { runs := [], dirs := [], files := [] } (by decide)
  have h1c := h1.2.2.2.2 (lit "\n") (lit "abc \r") (lit "\n\n")
    (by decide) (by decide) (by decide) (by decide)
  have h3 := h.2.2.1
    { runs := [([], none), (lit "abc123\n", none), (lit "\nabc123\n\n", none)],
      dirs := [], files := [] }
    { runs := [(lit "\nabc123\n\n", none)], dirs := [], files := [] }
    { runs := [], dirs := [], files := [] }
    (lit "abc123") [] (lit "\n") (lit "\n") (lit "\n\n")
    (by decide) (by decide) (by decide) (by decide) (by decide) (by decide) (by decide)
  have h4 := h.2.2.2
    { runs := [([], none), (lit "abc123\n", none), (lit "def456\n", none), ([], none)],
      dirs := [], files := [] } (lit "def456") (by decide)
  exact ⟨Prod.ext h1c h1.1, h3, h4⟩

end Revisions

end Gitfresh
